import Mathlib

/-!
# Verification of the miden-debug execution stepping and introspection engine

This development gives a shallow embedding of the core of the `miden-debug`
debugger: the `DebugExecutor` stepper (`src/exec/state.rs`), the
`ExecutionTrace` memory model (`src/exec/trace.rs`), the breakpoint engine and
free-run loop (`src/ui/state.rs`, `src/repl/session.rs`), and the debug
variable tracker (`src/debug/variables.rs`).

Components of the repository whose source files are not available
(`src/debug/breakpoint.rs`, `src/debug/stacktrace.rs`, `src/debug/native_ptr.rs`,
`src/debug/memory.rs`) and the external VM memory subsystem
(`miden_processor`) are modelled from the specification; every such definition
carries a doc comment saying so.
-/

namespace MidenDebug

/-- A field element, represented by its canonical `u64` value
(`Felt::as_canonical_u64` in the source). -/
abbrev Felt := Nat

/-- An execution context identifier (`miden_processor::ContextId`). -/
abbrev Ctx := Nat

/-- An opaque VM operation (`miden_processor::operation::Operation`). -/
abbrev Op := Nat

/-- An opaque execution error (`miden_processor::ExecutionError`). -/
abbrev ExecError := Nat

/-- An opaque processor resume context (`miden_processor::ResumeContext`). -/
abbrev ResumeCtx := Nat

/-- A word: four field elements, as stored at a word-aligned memory address. -/
abbrev MWord := List Felt

/-- `Word::new([Felt::ZERO; 4])`: the all-zero word. -/
def zeroWord : MWord := [0, 0, 0, 0]

/-- A resolved source location (file and line), standing in for
`ResolvedLocation` from `src/debug/stacktrace.rs`. -/
structure Loc where
  file : String
  line : Nat
deriving DecidableEq

/-- Assembly-level operation metadata (`miden_core::operations::AssemblyOp`):
originating procedure name and optional source location. -/
structure AsmOp where
  procName : String
  loc : Option Loc
deriving DecidableEq

/-- `TraceEvent` from `src/exec/trace_event.rs`: a frame-enter, frame-exit or
assertion-failure marker delivered by the host callbacks. -/
inductive TraceEvent
  | FrameStart
  | FrameEnd
  | AssertionFailed (code : Option Nat)
deriving DecidableEq

/-! ## External VM memory interface

The memory subsystem behind `ExecutionTrace` belongs to `miden_processor`
(`self.processor.memory()`), an external collaborator.  We keep it abstract as
an interface of fallible reads, exactly the shape consumed by `trace.rs`:
`read_element(ctx, addr)` and `read_word(ctx, addr, clk)`, each returning a
`Result`.  The cause of a failure is never inspected by the debugger
(`Err(_)`), so the error type is `Unit`. -/

/-- The read interface of the external VM memory
(`miden_processor` memory, as used by `src/exec/trace.rs`). -/
structure VmMemory where
  readElement : Ctx → Nat → Except Unit Felt
  readWord : Ctx → Nat → Nat → Except Unit MWord

/-- One memory write `(context, address, value)` of a captured run. -/
abbrev MemWrite := Ctx × Nat × Felt

/-- Value at `(ctx, addr)` after the chronological write list `ws`
(last write wins, zero if never written). -/
def lastWrite (ws : List MemWrite) (ctx addr : Nat) : Felt :=
  ((ws.reverse.find? fun w => w.1 == ctx && w.2.1 == addr).map fun w => w.2.2).getD 0

/-- Modelled from the spec: the external VM memory is "conceptually
zero-initialized and sparse"; a never-written address reads as zero, and a
word read at a non-word-aligned address fails (the VM memory is
word-addressable in groups of four elements). -/
def sparseMem (ws : List MemWrite) : VmMemory where
  readElement ctx addr := .ok (lastWrite ws ctx addr)
  readWord ctx addr _clk :=
    if addr % 4 == 0 then
      .ok [lastWrite ws ctx addr, lastWrite ws ctx (addr + 1),
           lastWrite ws ctx (addr + 2), lastWrite ws ctx (addr + 3)]
    else
      .error ()

/-! ## ExecutionTrace (`src/exec/trace.rs`) -/

/-- `MemoryReadError` from `src/exec/trace.rs:13-19`. -/
inductive MemoryReadError
  | OutOfBounds
  | UnalignedRead
deriving DecidableEq

/-- `ExecutionTrace` from `src/exec/trace.rs:26-31`: a root context, the final
cycle, and a handle to the completed VM memory (the `FastProcessor` field,
reduced to its read interface). -/
structure ExecutionTrace where
  root_context : Ctx
  last_cycle : Nat
  memory : VmMemory

/-- `ExecutionTrace::read_memory_word_in_context` (`trace.rs:67-79`):
any underlying failure is mapped to the zero word. -/
def ExecutionTrace.read_memory_word_in_context
    (t : ExecutionTrace) (addr : Nat) (ctx : Ctx) (clk : Nat) : Option MWord :=
  match t.memory.readWord ctx addr clk with
  | .ok w => some w
  | .error _ => some zeroWord

/-- `ExecutionTrace::read_memory_word` (`trace.rs:62-64`). -/
def ExecutionTrace.read_memory_word (t : ExecutionTrace) (addr : Nat) : Option MWord :=
  t.read_memory_word_in_context addr t.root_context t.last_cycle

/-- `ExecutionTrace::read_memory_element_in_context` (`trace.rs:89-96`):
note the clock argument is ignored (`_clk`) and a failure becomes `None`. -/
def ExecutionTrace.read_memory_element_in_context
    (t : ExecutionTrace) (addr : Nat) (ctx : Ctx) (_clk : Nat) : Option Felt :=
  (t.memory.readElement ctx addr).toOption

/-- `ExecutionTrace::read_memory_element` (`trace.rs:83-85`). -/
def ExecutionTrace.read_memory_element (t : ExecutionTrace) (addr : Nat) : Option Felt :=
  (t.memory.readElement t.root_context addr).toOption

/-! ## NativePtr and typed byte reads -/

/-- Modelled from the spec: `NativePtr` (`src/debug/native_ptr.rs` is not part
of the provided sources) is "a decomposed address (aligned base + sub-element
offset) used to validate alignment before a typed read".  `addr` is the
element address, `offset` the byte offset inside the element. -/
structure NativePtr where
  addr : Nat
  offset : Nat
deriving DecidableEq

/-- Modelled from the spec: a pointer is element-aligned when its sub-element
offset is zero. -/
def NativePtr.is_element_aligned (p : NativePtr) : Bool :=
  p.offset == 0

/-- Modelled from the spec: a pointer is word-aligned when it is
element-aligned and its element address is a multiple of four. -/
def NativePtr.is_word_aligned (p : NativePtr) : Bool :=
  p.offset == 0 && p.addr % 4 == 0

/-- Largest valid `u32` address, for the `checked_add` overflow test. -/
def u32Max : Nat := 2 ^ 32 - 1

/-- Low 32 bits of a field element's canonical value
(`elem.as_canonical_u64() & U32_MASK` in `trace.rs:125`). -/
def low32 (v : Felt) : Nat := v % 2 ^ 32

/-- Big-endian bytes of a 32-bit value (`u32::to_be_bytes`). -/
def beBytes4 (v : Nat) : List Nat :=
  [v / 2 ^ 24 % 256, v / 2 ^ 16 % 256, v / 2 ^ 8 % 256, v % 256]

/-- The element-gathering loop of `read_bytes_for_type` (`trace.rs:115-118`):
read `count` successive elements starting at element address `base + i`,
failing with `OutOfBounds` when `checked_add` would overflow `u32`, and
substituting the default (zero) element for an absent read
(`unwrap_or_default`). -/
def readElemsAux (t : ExecutionTrace) (base : Nat) (ctx : Ctx) (clk : Nat) :
    Nat → Nat → Except MemoryReadError (List Felt)
  | _, 0 => .ok []
  | i, k + 1 =>
    if base + i ≤ u32Max then
      match readElemsAux t base ctx clk (i + 1) k with
      | .ok rest => .ok ((t.read_memory_element_in_context (base + i) ctx clk).getD 0 :: rest)
      | .error e => .error e
    else
      .error .OutOfBounds

/-- All `count` elements for a typed read, starting at element address `base`. -/
def readElems (t : ExecutionTrace) (base : Nat) (ctx : Ctx) (clk : Nat)
    (count : Nat) : Except MemoryReadError (List Felt) :=
  readElemsAux t base ctx clk 0 count

/-- The byte-accumulation loop of `read_bytes_for_type` (`trace.rs:123-129`):
each element contributes the first `min needed 4` of its big-endian low-32
bytes, decrementing `needed`. -/
def accBytes : List Felt → Nat → List Nat
  | [], _ => []
  | e :: rest, needed =>
    let bytes := beBytes4 (low32 e)
    let tk := min needed 4
    bytes.take tk ++ accBytes rest (needed - tk)

/-- `ExecutionTrace::read_bytes_for_type` (`trace.rs:100-132`), with the
external `Type` reduced to its declared sizes `ty.size_in_bytes()` and
`ty.size_in_felts()`. -/
def ExecutionTrace.read_bytes_for_type (t : ExecutionTrace) (p : NativePtr)
    (sizeBytes sizeFelts : Nat) (ctx : Ctx) (clk : Nat) :
    Except MemoryReadError (List Nat) :=
  if p.is_element_aligned then
    match readElems t p.addr ctx clk sizeFelts with
    | .ok elems => .ok (accBytes elems sizeBytes)
    | .error e => .error e
  else
    .error .UnalignedRead

/-- The word-gathering loop of `read_from_rust_memory_in_context`
(`trace.rs:178-188`): read `count` words at `base + 4 * i` through
`read_memory_word`, reversing the element order of each word before
collecting it. -/
def readRustWordsAux (t : ExecutionTrace) (base : Nat) :
    Nat → Nat → Option (List MWord)
  | _, 0 => some []
  | i, k + 1 => do
    let w ← t.read_memory_word (base + i * 4)
    let rest ← readRustWordsAux t base (i + 1) k
    pure (w.reverse :: rest)

/-- The full word list gathered by the `n ≥ 4` branch of
`read_from_rust_memory_in_context`. -/
def readRustWords (t : ExecutionTrace) (base : Nat) (numWords : Nat) :
    Option (List MWord) :=
  readRustWordsAux t base 0 numWords

/-- The word `read_memory_word` yields at `addr` (underlying failures read as
the zero word); used to state what the loops above produce. -/
def wordReadZero (t : ExecutionTrace) (addr : Nat) : MWord :=
  match t.memory.readWord t.root_context addr t.last_cycle with
  | .ok w => w
  | .error _ => zeroWord

/-! ## Call stack reconstructor

`src/debug/stacktrace.rs` is not part of the provided sources; the call frame
and reconstructor below are modelled from the specification (section 4.2). -/

/-- Modelled from the spec: a reconstructed call frame owns a bounded sliding
window (capacity 5) of recently retired operations, a "break on exit" flag,
the most recently resolved source location, and its owning procedure name
(`CallFrame` from the missing `src/debug/stacktrace.rs`). -/
structure CallFrame where
  procedure : Option String := none
  break_on_exit : Bool := false
  recent : List Op := []
  resolved : Option Loc := none
deriving DecidableEq

/-- `CallFrame::should_break_on_exit`, as consulted by the free-run loop. -/
def CallFrame.should_break_on_exit (f : CallFrame) : Bool :=
  f.break_on_exit

/-- `CallFrame::break_on_exit()` (setter), as called by
`State::create_breakpoint`. -/
def CallFrame.set_break_on_exit (f : CallFrame) : CallFrame :=
  { f with break_on_exit := true }

/-- A call stack: innermost (current) frame first. -/
abbrev CallStack := List CallFrame

/-- The data of one step handed to the reconstructor (`StepInfo` in the
source): the retired operation, its procedure name and source location (from
the assembly op metadata), the clock and the context. -/
structure StepInfo where
  op : Option Op := none
  procName : Option String := none
  loc : Option Loc := none
  clk : Nat := 0
  ctx : Ctx := 0
deriving DecidableEq

/-- Append an operation to a capacity-5 sliding window, evicting the oldest
first. -/
def push5 (xs : List Op) (o : Op) : List Op :=
  (if xs.length == 5 then xs.drop 1 else xs) ++ [o]

/-- Modelled from the spec: process this cycle's trace events in delivery
order (`FrameEnd` is always delivered before any subsequent `FrameStart` of
the same cycle).  `FrameStart` pushes a fresh frame; `FrameEnd` pops the
current frame and reports it as the cycle's exited frame when its
"break on exit" flag was set; assertion failures do not change stack shape.
A `FrameEnd` on an empty stack is a fatal instrumentation error in the
source; it is modelled as leaving the (empty) stack unchanged, which no
theorem below relies on. -/
def processEvents (info : StepInfo) :
    List TraceEvent → CallStack → Option CallFrame → CallStack × Option CallFrame
  | [], stack, exited => (stack, exited)
  | .FrameStart :: rest, stack, exited =>
    processEvents info rest ({ procedure := info.procName } :: stack) exited
  | .FrameEnd :: rest, stack, exited =>
    match stack with
    | [] => processEvents info rest [] exited
    | f :: s =>
      processEvents info rest s (if f.break_on_exit then some f else exited)
  | .AssertionFailed _ :: rest, stack, exited =>
    processEvents info rest stack exited

/-- Modelled from the spec: after the events are applied, a step that carried
an operation pushes it into the innermost frame's bounded window, and a step
that carried a source location updates the innermost frame's resolved
location. -/
def pushOpInfo (info : StepInfo) : CallStack → CallStack
  | [] => []
  | f :: rest =>
    let f := match info.op with
      | some o => { f with recent := push5 f.recent o }
      | none => f
    let f := match info.loc with
      | some l => { f with resolved := some l }
      | none => f
    f :: rest

/-- Modelled from the spec: `CallStack::next` — one transition of the call
stack reconstructor for a single step, returning the updated stack and the
frame (if any) reported exited this cycle. -/
def callstackNext (stack : CallStack) (events : List TraceEvent)
    (info : StepInfo) : CallStack × Option CallFrame :=
  let (stack, exited) := processEvents info events stack none
  (pushOpInfo info stack, exited)

/-! ## DebugExecutor (`src/exec/state.rs`) -/

/-- The outcome of one call to `processor.step(...)` together with the state
queried right after it (`state.get_stack_state()`, `state.ctx()`) and the
trace events the host callbacks delivered synchronously during the step.
`ok_continue` is `Ok(Some(new_ctx))`, `ok_done` is `Ok(None)` (program
completed), `err` is `Err(err)`. -/
inductive ProcResult
  | ok_continue (resume : ResumeCtx) (stack : List Felt) (ctx : Ctx)
      (events : List TraceEvent)
  | ok_done (stack : List Felt)
  | err (e : ExecError)

/-- `DebugExecutor` from `src/exec/state.rs:37-69`, reduced to its observable
state: the resume context, current stack/op/asmop, the context set, the call
stack, the recent-operations window, the cycle counter and the stopped flag.
The `FastProcessor` and host are factored out as the step oracle passed to
`DebugExec.step`. -/
structure DebugExec where
  resume_ctx : Option ResumeCtx
  current_stack : List Felt
  current_op : Option Op
  current_asmop : Option AsmOp
  contexts : List Ctx
  root_context : Ctx
  current_context : Ctx
  callstack : CallStack
  recent : List Op
  cycle : Nat
  stopped : Bool
deriving DecidableEq

/-- `BTreeSet::insert` on the context set (order is irrelevant to every
claim; modelled as cons-if-absent). -/
def insertCtx (c : Ctx) (cs : List Ctx) : List Ctx :=
  if cs.contains c then cs else c :: cs

/-- `DebugExecutor::step` (`src/exec/state.rs:118-186`).  `proc` is the
processor step (plus post-step state query and synchronously delivered trace
events); `peek` is `extract_current_op` applied to the resume context
(`state.rs:132-134`). -/
def DebugExec.step (s : DebugExec) (proc : ResumeCtx → ProcResult)
    (peek : ResumeCtx → Option Op × Option AsmOp) :
    Except ExecError (Option CallFrame) × DebugExec :=
  if s.stopped then
    (.ok none, s)
  else
    match s.resume_ctx with
    | none => (.ok none, { s with stopped := true })
    | some rctx =>
      let op := (peek rctx).1
      let asmop := (peek rctx).2
      match proc rctx with
      | .ok_continue r stack ctx events =>
        let cycle := s.cycle + 1
        let contexts := if s.current_context ≠ ctx then insertCtx ctx s.contexts else s.contexts
        let recent := match op with
          | some o => push5 s.recent o
          | none => s.recent
        let info : StepInfo :=
          { op := op, procName := asmop.map AsmOp.procName,
            loc := asmop.bind AsmOp.loc, clk := cycle, ctx := ctx }
        let next := callstackNext s.callstack events info
        (.ok next.2,
          { s with resume_ctx := some r, cycle := cycle, current_stack := stack,
                   contexts := contexts, current_context := ctx,
                   current_op := op, current_asmop := asmop, recent := recent,
                   callstack := next.1 })
      | .ok_done stack =>
        (.ok none, { s with stopped := true, resume_ctx := none, current_stack := stack })
      | .err e =>
        (.error e, { s with stopped := true, resume_ctx := none })

/-! ## Breakpoints (`src/debug/breakpoint.rs`, modelled; `src/ui/state.rs`)

`src/debug/breakpoint.rs` is not part of the provided sources; the breakpoint
type and its matching methods are modelled from the specification
(section 4.3), in the shapes consumed by `src/ui/state.rs` and
`src/repl/session.rs`. -/

/-- Modelled from the spec: the six breakpoint variants
(`BreakpointType` from the missing `src/debug/breakpoint.rs`). -/
inductive BreakpointType
  | AtCycle (n : Nat)
  | AfterNCycles (n : Nat)
  | InProcedure (name : String)
  | AtSourceLocation (file : String) (line : Nat)
  | Next
  | Finish
deriving DecidableEq

/-- `Breakpoint` from the missing `src/debug/breakpoint.rs`: id, creation
cycle and variant, per the specification's data model (section 3). -/
structure Breakpoint where
  id : Nat
  creation_cycle : Nat
  ty : BreakpointType
deriving DecidableEq

/-- Modelled from the spec: `Next` and `Finish` are one-shot, the rest
persist until deleted. -/
def Breakpoint.is_one_shot (bp : Breakpoint) : Bool :=
  match bp.ty with
  | .Next | .Finish => true
  | _ => false

/-- Modelled from the spec: for the two cycle-count variants, the number of
cycles the free-run loop must step before the target is reached (`AtCycle n`
counts from the breakpoint's creation cycle, `AfterNCycles n` is the count
itself); `none` for every other variant. -/
def Breakpoint.cycles_to_skip (bp : Breakpoint) (_currentCycle : Nat) : Option Nat :=
  match bp.ty with
  | .AtCycle n => some (n - bp.creation_cycle)
  | .AfterNCycles n => some n
  | _ => none

/-- Modelled from the spec: `AtSourceLocation` matches when the current
frame's resolved location equals the target (file and line). -/
def Breakpoint.should_break_at (bp : Breakpoint) (loc : Loc) : Bool :=
  match bp.ty with
  | .AtSourceLocation f l => f == loc.file && l == loc.line
  | _ => false

/-- Modelled from the spec: `InProcedure` matches when the current frame's
procedure name equals the target. -/
def Breakpoint.should_break_in (bp : Breakpoint) (proc : String) : Bool :=
  match bp.ty with
  | .InProcedure n => n == proc
  | _ => false

/-- `breakpoints.iter().chain(breakpoints_hit.iter()).any(|bp| bp.id == id)`
(`src/ui/state.rs:191-195`): the id is held by a live or already-hit
breakpoint. -/
def bpIdUsed (bps hit : List Breakpoint) (id : Nat) : Bool :=
  (bps ++ hit).any fun bp => bp.id == id

/-- Wrap into the 8-bit id space (`u8::wrapping_add`). -/
def u8wrap (n : Nat) : Nat := n % 256

/-- The scan loop of `State::next_breakpoint_id` (`src/ui/state.rs:185-204`).
State: `candidate` and `next` (always `u8wrap (candidate + 1)`), with
`initial` the cursor the scan started from.  Each iteration first executes
`assert_ne!(initial, next, ...)` — the panic is modelled as `none` — then
either skips a used candidate or returns `(candidate, next)` (the allocated
id and the new cursor).  The fuel argument only bounds the recursion; the
assertion fires after at most 256 iterations, so with fuel 256 the fuel case
is unreachable. -/
def nextIdLoop (used : Nat → Bool) (initial : Nat) :
    Nat → Nat → Nat → Option (Nat × Nat)
  | _, _, 0 => none
  | candidate, next, fuel + 1 =>
    if initial = next then none
    else if used candidate then
      nextIdLoop used initial next (u8wrap (next + 1)) fuel
    else
      some (candidate, next)

/-- `State::next_breakpoint_id` (`src/ui/state.rs:185-204`): scan upward from
the stored cursor for an id not held by any live or hit breakpoint.  Returns
`some (id, newCursor)`, or `none` for the `assert_ne!` panic ("unable to
allocate a breakpoint id: too many breakpoints"). -/
def nextBreakpointId (cursor : Nat) (used : Nat → Bool) : Option (Nat × Nat) :=
  nextIdLoop used cursor cursor (u8wrap (cursor + 1)) 256

/-- The breakpoint-relevant projection of `State` (`src/ui/state.rs:15-27`):
live and hit breakpoints, the id cursor, the executor's call stack and
cycle. -/
structure BpState where
  breakpoints : List Breakpoint
  breakpoints_hit : List Breakpoint
  next_breakpoint_id : Nat
  callstack : CallStack
  cycle : Nat
deriving DecidableEq

/-- Flag the current (innermost) frame to break on exit; no other frame is
touched, and an empty stack is left unchanged
(`self.executor.callstack.current_frame_mut()` in `create_breakpoint`). -/
def flagTopFrame : CallStack → CallStack
  | [] => []
  | f :: rest => f.set_break_on_exit :: rest

/-- `State::create_breakpoint` (`src/ui/state.rs:169-183`): allocate an id
(`none` models the id-allocation panic), flag the current frame when the
variant is `Finish`, and push the new breakpoint with the current cycle as
its creation cycle. -/
def createBreakpoint (s : BpState) (ty : BreakpointType) : Option BpState :=
  match nextBreakpointId s.next_breakpoint_id (bpIdUsed s.breakpoints s.breakpoints_hit) with
  | none => none
  | some (id, cursor) =>
    let cs := if ty = BreakpointType.Finish then flagTopFrame s.callstack else s.callstack
    some { s with next_breakpoint_id := cursor, callstack := cs,
                  breakpoints := s.breakpoints ++ [⟨id, s.cycle, ty⟩] }

/-! ## The free-run loop (`ReplSession::run_until_stopped`,
`src/repl/session.rs:201-317`) -/

/-- The observables consulted for breakpoint checks after one step
(`session.rs:229-246`): whether the step was an instruction boundary
(`current_asmop.is_some()`), the current frame's procedure name and resolved
location, and the current cycle. -/
structure StepObs where
  is_op_boundary : Bool
  proc : Option String
  loc : Option Loc
  cycle : Nat
deriving DecidableEq

/-- One iteration's input to the free-run loop: `term` is "the executor was
already stopped at the top of the loop" (`session.rs:207`), `errored` is a
step that returned an execution error, `stepped` is a successful step with
its reported exited frame and the post-step observables. -/
inductive StepR
  | term
  | errored (e : ExecError)
  | stepped (exited : Option CallFrame) (obs : StepObs)
deriving DecidableEq

/-- The session state the free-run loop leaves behind: the restored live
breakpoints, the hit list, `execution_failed`, the `stopped` flag and the
number of steps the loop executed. -/
structure LoopResult where
  breakpoints : List Breakpoint
  breakpoints_hit : List Breakpoint
  execution_failed : Option ExecError
  stopped : Bool
  consumed : Nat
deriving DecidableEq

/-- One breakpoint's check in the `retain_mut` scan (`session.rs:248-292`):
returns `(retain, hit)` — whether the breakpoint stays live and whether it
fired this step.  Checks, in source order: cycle-count target reached;
`Next` at an instruction boundary after at least one step; source-location
match; procedure match. -/
def scanOne (obs : StepObs) (cyclesStepped : Nat) (bp : Breakpoint) : Bool × Bool :=
  let procCheck : Bool × Bool :=
    match obs.proc with
    | some p => if bp.should_break_in p then (!bp.is_one_shot, true) else (true, false)
    | none => (true, false)
  match bp.cycles_to_skip obs.cycle with
  | some n => if cyclesStepped ≥ n then (!bp.is_one_shot, true) else (true, false)
  | none =>
    if cyclesStepped > 0 && obs.is_op_boundary && bp.ty == BreakpointType.Next then
      (false, true)
    else
      match obs.loc with
      | some loc => if bp.should_break_at loc then (!bp.is_one_shot, true) else procCheck
      | none => procCheck

/-- The whole `retain_mut` scan: returns the retained live list and the
breakpoints pushed onto the hit list this step, both in scan order. -/
def scanBps (obs : StepObs) (cyclesStepped : Nat) :
    List Breakpoint → List Breakpoint × List Breakpoint
  | [] => ([], [])
  | bp :: rest =>
    let r := scanOne obs cyclesStepped bp
    let (kept, hits) := scanBps obs cyclesStepped rest
    ((if r.1 then [bp] else []) ++ kept, (if r.2 then [bp] else []) ++ hits)

/-- `ReplSession::run_until_stopped` (`src/repl/session.rs:201-317`), driven
by the list of step outcomes.  The live breakpoints are taken out of the
session for the duration of the loop and restored (possibly mutated) in the
result.  Per iteration, in source order: stop if the executor already
terminated; step, noting an exited frame flagged break-on-exit and stopping
with a stored error on failure; skip all checks when no breakpoint is live;
run the `retain_mut` scan; consume the most recent `Finish` breakpoint and
stop if a flagged frame exited; stop if the hit list is non-empty.  An
exhausted input list behaves like a terminated executor (the VM halts every
run). -/
def runUntilStopped :
    List StepR → List Breakpoint → List Breakpoint → Option ExecError → Nat → LoopResult
  | [], bps, hit, failed, _ =>
    { breakpoints := bps, breakpoints_hit := hit, execution_failed := failed,
      stopped := true, consumed := 0 }
  | .term :: _, bps, hit, failed, _ =>
    { breakpoints := bps, breakpoints_hit := hit, execution_failed := failed,
      stopped := true, consumed := 0 }
  | .errored e :: _, bps, hit, _, _ =>
    { breakpoints := bps, breakpoints_hit := hit, execution_failed := some e,
      stopped := true, consumed := 1 }
  | .stepped exited obs :: rest, bps, hit, failed, startCycle =>
    let consumeFinish := (exited.map CallFrame.should_break_on_exit).getD false
    if bps.isEmpty then
      let r := runUntilStopped rest bps hit failed startCycle
      { r with consumed := r.consumed + 1 }
    else
      let scanned := scanBps obs (obs.cycle - startCycle) bps
      let hitNow := hit ++ scanned.2
      match
        (if consumeFinish then
          scanned.1.reverse.find? (fun bp => bp.ty == BreakpointType.Finish)
        else none) with
      | some fbp =>
        { breakpoints := scanned.1.filter (fun bp => bp.id != fbp.id),
          breakpoints_hit := hitNow, execution_failed := failed,
          stopped := true, consumed := 1 }
      | none =>
        if !hitNow.isEmpty then
          { breakpoints := scanned.1, breakpoints_hit := hitNow,
            execution_failed := failed, stopped := true, consumed := 1 }
        else
          let r := runUntilStopped rest scanned.1 hitNow failed startCycle
          { r with consumed := r.consumed + 1 }

/-! ## Memory read expressions and `State::read_memory`
(`src/ui/state.rs:218-309`) -/

/-- `FormatType` from the missing `src/debug/memory.rs`, modelled from the
spec: output format of a memory read (decimal, hex or binary). -/
inductive FormatType
  | Decimal
  | Hex
  | Binary
deriving DecidableEq

/-- The external `miden_assembly_syntax::ast::types::Type`, reduced to the
variants `State::read_memory` dispatches on, each carrying its declared
sizes.  `Word4` is `Type::Array(Felt, 4)`. -/
inductive MType
  | Felt
  | Word4
  | I1
  | I8
  | U8
  | I16
  | U16
  | I32
  | U32
  | I64
  | U64
  | Other (name : String) (sizeBytes sizeFelts : Nat)
deriving DecidableEq

/-- `Type::size_in_bytes()` of the external type, for the variants above. -/
def MType.sizeInBytes : MType → Nat
  | .Felt => 4
  | .Word4 => 16
  | .I1 | .I8 | .U8 => 1
  | .I16 | .U16 => 2
  | .I32 | .U32 => 4
  | .I64 | .U64 => 8
  | .Other _ b _ => b

/-- `Type::size_in_felts()` of the external type, for the variants above. -/
def MType.sizeInFelts : MType → Nat
  | .Felt => 1
  | .Word4 => 4
  | .I1 | .I8 | .U8 | .I16 | .U16 | .I32 | .U32 => 1
  | .I64 | .U64 => 2
  | .Other _ _ f => f

/-- `ReadMemoryExpr` from the missing `src/debug/memory.rs`, modelled from
the spec (section 6): address, declared type, output format and read
count. -/
structure ReadMemoryExpr where
  addr : NativePtr
  ty : MType
  format : FormatType
  count : Nat
deriving DecidableEq

/-- The value `State::read_memory` renders on success, kept structural (the
decimal/hex/binary string rendering of `write_with_format_type!` is pure
presentation): an unsigned scalar, a signed scalar, a word of four elements,
or a boolean (the `Type::I1` case). -/
inductive MemReadOut
  | uns (fmt : FormatType) (v : Nat)
  | sgn (fmt : FormatType) (v : Int)
  | word (fmt : FormatType) (w : List Nat)
  | boolean (fmt : FormatType) (b : Bool)
deriving DecidableEq

/-- Two's-complement reinterpretation of a `bits`-bit unsigned value as a
signed integer (`as i8` / `i16::from_be_bytes` / ... in the source). -/
def toSigned (bits : Nat) (v : Nat) : Int :=
  if v < 2 ^ (bits - 1) then (v : Int) else (v : Int) - 2 ^ bits

/-- Big-endian byte recomposition (`uN::from_be_bytes`). -/
def beJoin (bytes : List Nat) : Nat :=
  bytes.foldl (fun acc b => acc * 256 + b) 0

/-- `State::read_memory` (`src/ui/state.rs:218-309`), with the session state
reduced to the inputs the function actually consumes: the captured execution
trace, the executor's current cycle and context, and the read expression.
Error strings follow the source messages. -/
def stateReadMemory (t : ExecutionTrace) (cycle : Nat) (context : Ctx)
    (expr : ReadMemoryExpr) : Except String MemReadOut :=
  if expr.count > 1 then
    .error "-count with value > 1 is not yet implemented"
  else if expr.ty = MType.Felt then
    if !expr.addr.is_element_aligned then
      .error "read failed: type felt must be aligned to an element boundary"
    else
      let felt := (t.read_memory_element_in_context expr.addr.addr context cycle).getD 0
      .ok (.uns expr.format felt)
  else if expr.ty = MType.Word4 then
    if !expr.addr.is_word_aligned then
      .error "read failed: type word must be aligned to a word boundary"
    else
      let word := (t.read_memory_word expr.addr.addr).getD zeroWord
      .ok (.word expr.format word)
  else
    match t.read_bytes_for_type expr.addr expr.ty.sizeInBytes expr.ty.sizeInFelts
        context cycle with
    | .error _ => .error "invalid read"
    | .ok bytes =>
      match expr.ty with
      | .I1 => .ok (.boolean expr.format (bytes.getD 0 0 != 0))
      | .I8 => .ok (.sgn expr.format (toSigned 8 (bytes.getD 0 0)))
      | .U8 => .ok (.uns expr.format (bytes.getD 0 0))
      | .I16 => .ok (.sgn expr.format (toSigned 16 (beJoin (bytes.take 2))))
      | .U16 => .ok (.uns expr.format (beJoin (bytes.take 2)))
      | .I32 => .ok (.sgn expr.format (toSigned 32 (beJoin (bytes.take 4))))
      | .U32 => .ok (.uns expr.format (beJoin (bytes.take 4)))
      | .I64 =>
        let hi := beJoin (bytes.take 4)
        let lo := beJoin ((bytes.drop 4).take 4)
        .ok (.sgn expr.format (toSigned 64 (hi * 2 ^ 32 + lo)))
      | .U64 =>
        let hi := beJoin (bytes.take 4)
        let lo := beJoin ((bytes.drop 4).take 4)
        .ok (.uns expr.format (hi * 2 ^ 32 + lo))
      | _ => .error "support for reads of this type are not implemented yet"

/-! ## Debug variable tracker (`src/debug/variables.rs`) -/

/-- `DebugVarLocation` from `src/debug/variables.rs:15-26`: where a debug
variable's value lives. -/
inductive DebugVarLocation
  | Stack (pos : Nat)
  | Memory (addr : Nat)
  | Const (f : Felt)
  | Local (idx : Nat)
  | Expression (bytes : List Nat)
deriving DecidableEq

/-- `resolve_variable_value` from `src/debug/variables.rs:154-163`.  The
source is an explicit stub: every argument is ignored and the function
always returns `None` ("Variable value resolution requires miden-core /
For now, always return None"). -/
def resolve_variable_value (_location : DebugVarLocation) (_stack : List Felt)
    (_get_memory : Nat → Option Felt) (_get_local : Nat → Option Felt) :
    Option Felt :=
  none

/-! # Theorems -/

/-! ## C1: stepping after a terminal state -/

/-- C1: once the `DebugExecutor` has reached a terminal state
(`stopped = true`, set both on normal completion and on failure), every
subsequent `step()` returns `Ok(None)` and leaves the whole observable state
(cycle, current stack/op/asmop, contexts, current context, call stack,
recent window) unchanged; moreover any step that returns an execution error,
and any step that observes normal completion, leaves the executor stopped —
so an execution error is returned at most once and never again by later
`step()` calls. -/
theorem step_terminal_idempotent (s : DebugExec)
    (proc : ResumeCtx → ProcResult) (peek : ResumeCtx → Option Op × Option AsmOp) :
    (s.stopped = true → s.step proc peek = (.ok none, s)) ∧
    (∀ e s2, s.step proc peek = (.error e, s2) → s2.stopped = true) ∧
    (∀ rctx stack, s.resume_ctx = some rctx → proc rctx = .ok_done stack →
      (s.step proc peek).2.stopped = true) := by
  refine ⟨fun h => by simp [DebugExec.step, h], ?_, ?_⟩
  · intro e s2 h
    by_cases hs : s.stopped
    · simp [DebugExec.step, hs] at h
    · cases hr : s.resume_ctx with
      | none => simp [DebugExec.step, hs, hr] at h
      | some rctx =>
        cases hp : proc rctx with
        | ok_continue r stack ctx events => simp [DebugExec.step, hs, hr, hp] at h
        | ok_done stack => simp [DebugExec.step, hs, hr, hp] at h
        | err e2 =>
          simp [DebugExec.step, hs, hr, hp] at h
          rw [← h.2]
  · intro rctx stack hr hp
    by_cases hs : s.stopped
    · simp [DebugExec.step, hs]
    · simp [DebugExec.step, hs, hr, hp]

/-- Concrete terminated executor state for the C1 witness. -/
def execStopped : DebugExec :=
  { resume_ctx := none, current_stack := [3], current_op := none,
    current_asmop := none, contexts := [0], root_context := 0,
    current_context := 0, callstack := [{ procedure := some "main" }],
    recent := [7], cycle := 9, stopped := true }

/-- A processor oracle that would fail if it were ever consulted. -/
def procErr : ResumeCtx → ProcResult := fun _ => .err 5

/-- A peek oracle returning no operation metadata. -/
def peekNone : ResumeCtx → Option Op × Option AsmOp := fun _ => (none, none)

/-- Witness for C1: at the concrete terminated state, a step returns
`Ok(None)` and the state is bit-for-bit unchanged; and a step of a running
state whose processor reports an error leaves the executor stopped. -/
theorem step_terminal_idempotent_witness :
    execStopped.step procErr peekNone = (.ok none, execStopped) ∧
    execStopped.stopped = true :=
  ⟨(step_terminal_idempotent execStopped procErr peekNone).1 rfl,
   (step_terminal_idempotent
      { execStopped with stopped := false, resume_ctx := some 0 }
      procErr peekNone).2.1 5 execStopped rfl⟩

/-! ## C5: the free-run loop on an execution error -/

/-- C5: when a step inside the free-run loop returns an execution error, the
loop stops at that very step (the remaining stream is never consulted and
exactly one step was consumed), moves no breakpoint to the hit list for that
step, stores the error in `execution_failed` instead of unwinding, marks the
session stopped, and restores the live breakpoint collection unchanged. -/
theorem run_error_stops_immediately (e : ExecError) (rest : List StepR)
    (bps hit : List Breakpoint) (failed : Option ExecError) (startCycle : Nat) :
    runUntilStopped (.errored e :: rest) bps hit failed startCycle =
      { breakpoints := bps, breakpoints_hit := hit, execution_failed := some e,
        stopped := true, consumed := 1 } := rfl

/-! ## C9: variable value resolution -/

/-- C9 counterexample: the claim says a variable with an embedded-constant
location resolves to that constant; on the code, resolving the constant
location `Const 42` yields `None`, not `Some 42` — `resolve_variable_value`
is an explicit stub. -/
theorem resolve_variable_const_counterexample :
    ¬ (resolve_variable_value (DebugVarLocation.Const 42) []
        (fun _ => none) (fun _ => none) = some 42) := by
  simp [resolve_variable_value]

/-- C9 amended: `resolve_variable_value` ignores the declared location kind
and the caller-supplied accessors entirely and always returns `None` —
resolution is unimplemented pending miden-core support, as the source's own
comment and test state. -/
theorem resolve_variable_always_none (location : DebugVarLocation)
    (stack : List Felt) (get_memory : Nat → Option Felt)
    (get_local : Nat → Option Felt) :
    resolve_variable_value location stack get_memory get_local = none := rfl

/-! ## C10: totality of word reads vs partiality of element reads -/

/-- C10: `read_memory_word` / `read_memory_word_in_context` never return
`None` — every underlying read failure is mapped to `Some` of the zero word,
so the `Option` in the word-read signature is vacuous; by contrast
`read_memory_element_in_context` returns `None` whenever the underlying read
fails. -/
theorem word_reads_total_element_reads_fallible (t : ExecutionTrace)
    (addr : Nat) (ctx : Ctx) (clk : Nat) :
    (t.read_memory_word_in_context addr ctx clk).isSome = true ∧
    (t.read_memory_word addr).isSome = true ∧
    (t.memory.readWord ctx addr clk = .error () →
      t.read_memory_word_in_context addr ctx clk = some zeroWord) ∧
    (t.memory.readElement ctx addr = .error () →
      t.read_memory_element_in_context addr ctx clk = none) := by
  refine ⟨?_, ?_, ?_, ?_⟩
  · cases h : t.memory.readWord ctx addr clk <;>
      simp [ExecutionTrace.read_memory_word_in_context, h]
  · cases h : t.memory.readWord t.root_context addr t.last_cycle <;>
      simp [ExecutionTrace.read_memory_word,
            ExecutionTrace.read_memory_word_in_context, h]
  · intro h; simp [ExecutionTrace.read_memory_word_in_context, h]
  · intro h; simp [ExecutionTrace.read_memory_element_in_context, h, Except.toOption]

/-- A trace whose underlying memory fails every read, for the C10 witness. -/
def failTrace : ExecutionTrace :=
  { root_context := 0, last_cycle := 0,
    memory := { readElement := fun _ _ => .error (),
                readWord := fun _ _ _ => .error () } }

/-- Witness for C10: on a memory that fails every read, the word read still
returns `Some` of the zero word while the element read returns `None`. -/
theorem word_reads_total_witness :
    failTrace.read_memory_word_in_context 7 0 0 = some zeroWord ∧
    failTrace.read_memory_element_in_context 7 0 0 = none :=
  ⟨(word_reads_total_element_reads_fallible failTrace 7 0 0).2.2.1 rfl,
   (word_reads_total_element_reads_fallible failTrace 7 0 0).2.2.2 rfl⟩

/-! ## C8: multi-count memory read expressions -/

/-- C8: for every read expression with `count > 1`, `State::read_memory`
returns an explicit error; the result is the same for every captured trace,
cycle and context, so no memory read is performed. -/
theorem read_memory_count_gt_one_errors (t : ExecutionTrace) (cycle : Nat)
    (context : Ctx) (expr : ReadMemoryExpr) (h : expr.count > 1) :
    stateReadMemory t cycle context expr =
      .error "-count with value > 1 is not yet implemented" := by
  simp [stateReadMemory, h]

/-- Witness for C8: a concrete `count = 2` read of a `u32` fails with the
unimplemented-count error even on a memory that would fail every read. -/
theorem read_memory_count_witness :
    (2 > 1) ∧
    stateReadMemory failTrace 0 0
        { addr := { addr := 0, offset := 0 }, ty := MType.U32,
          format := FormatType.Decimal, count := 2 } =
      .error "-count with value > 1 is not yet implemented" :=
  ⟨by decide, read_memory_count_gt_one_errors failTrace 0 0 _ (by decide)⟩

/-! ## C2: never-written addresses read as zero -/

/-- No write in the captured run touched `(ctx, addr)`. -/
def neverWritten (ws : List MemWrite) (ctx addr : Nat) : Prop :=
  ∀ w ∈ ws, w.1 = ctx → w.2.1 ≠ addr

instance (ws : List MemWrite) (ctx addr : Nat) :
    Decidable (neverWritten ws ctx addr) :=
  inferInstanceAs (Decidable (∀ w ∈ ws, w.1 = ctx → w.2.1 ≠ addr))

/-- A never-written address holds the zero element in the sparse memory. -/
theorem lastWrite_eq_zero (ws : List MemWrite) (ctx addr : Nat)
    (h : neverWritten ws ctx addr) : lastWrite ws ctx addr = 0 := by
  have hfind : ws.reverse.find? (fun w => w.1 == ctx && w.2.1 == addr) = none := by
    rw [List.find?_eq_none]
    intro w hw
    have hmem : w ∈ ws := List.mem_reverse.mp hw
    simp only [Bool.and_eq_true, beq_iff_eq, not_and]
    intro hc
    exact h w hmem hc
  simp [lastWrite, hfind]

/-- An `ExecutionTrace` over the spec-modelled sparse memory of a captured
write list. -/
def sparseTrace (rc lc : Nat) (ws : List MemWrite) : ExecutionTrace :=
  { root_context := rc, last_cycle := lc, memory := sparseMem ws }

/-- C2: on the captured run's memory (zero-initialized and sparse, per the
spec), an address never written in context `ctx` — including any
out-of-range address — reads as zero and not as an error or absent result:
`read_memory_element_in_context` yields `some 0` for every cycle,
`read_memory_word_in_context` yields `some` of the zero word for every cycle
when none of the word's four element addresses was written, and the
default-context variants `read_memory_element` / `read_memory_word` do the
same at the root context and final cycle. -/
theorem unwritten_reads_zero (ws : List MemWrite) (rc lc ctx clk addr : Nat)
    (h : ∀ i < 4, neverWritten ws ctx (addr + i)) :
    (sparseTrace rc lc ws).read_memory_element_in_context addr ctx clk = some 0 ∧
    (sparseTrace rc lc ws).read_memory_word_in_context addr ctx clk = some zeroWord ∧
    (ctx = rc → (sparseTrace rc lc ws).read_memory_element addr = some 0) ∧
    (ctx = rc → (sparseTrace rc lc ws).read_memory_word addr = some zeroWord) := by
  have h0 : lastWrite ws ctx addr = 0 := by
    have := lastWrite_eq_zero ws ctx addr (by simpa using h 0 (by omega))
    simpa using this
  have h1 : lastWrite ws ctx (addr + 1) = 0 := lastWrite_eq_zero _ _ _ (h 1 (by omega))
  have h2 : lastWrite ws ctx (addr + 2) = 0 := lastWrite_eq_zero _ _ _ (h 2 (by omega))
  have h3 : lastWrite ws ctx (addr + 3) = 0 := lastWrite_eq_zero _ _ _ (h 3 (by omega))
  have helem : (sparseTrace rc lc ws).read_memory_element_in_context addr ctx clk
      = some 0 := by
    simp [sparseTrace, ExecutionTrace.read_memory_element_in_context, sparseMem,
          Except.toOption, h0]
  have hword : ∀ c, (sparseTrace rc lc ws).read_memory_word_in_context addr ctx c
      = some zeroWord := by
    intro c
    by_cases ha : addr % 4 = 0
    · simp [sparseTrace, ExecutionTrace.read_memory_word_in_context, sparseMem,
            ha, h0, h1, h2, h3, zeroWord]
    · simp [sparseTrace, ExecutionTrace.read_memory_word_in_context, sparseMem, ha]
  refine ⟨helem, hword clk, ?_, ?_⟩
  · intro hc
    subst hc
    simpa [ExecutionTrace.read_memory_element,
           ExecutionTrace.read_memory_element_in_context] using helem
  · intro hc
    subst hc
    exact hword lc

/-- Witness for C2: with a single write of value 7 at `(ctx 0, addr 5)`,
address 8 (and its word) was never written, and both reads return zero. -/
theorem unwritten_reads_zero_witness :
    (∀ i < 4, neverWritten [(0, 5, 7)] 0 (8 + i)) ∧
    (sparseTrace 0 3 [(0, 5, 7)]).read_memory_element_in_context 8 0 2 = some 0 ∧
    (sparseTrace 0 3 [(0, 5, 7)]).read_memory_word_in_context 8 0 2 = some zeroWord :=
  ⟨by decide,
   (unwritten_reads_zero [(0, 5, 7)] 0 3 0 2 8 (by decide)).1,
   (unwritten_reads_zero [(0, 5, 7)] 0 3 0 2 8 (by decide)).2.1⟩

/-! ## C6: alignment checking of typed reads -/

/-- The element-gathering loop never produces an unaligned-read error: its
only failure is the `checked_add` overflow, reported as `OutOfBounds`. -/
theorem readElemsAux_no_unaligned (t : ExecutionTrace) (base : Nat) (ctx : Ctx)
    (clk : Nat) : ∀ k i, readElemsAux t base ctx clk i k ≠ .error .UnalignedRead := by
  intro k
  induction k with
  | zero => intro i h; simp [readElemsAux] at h
  | succ k ih =>
    intro i h
    rw [readElemsAux] at h
    split at h
    · cases hr : readElemsAux t base ctx clk (i + 1) k with
      | ok rest => rw [hr] at h; simp at h
      | error e =>
        rw [hr] at h
        simp only [Except.error.injEq] at h
        exact ih (i + 1) (by rw [hr, h])
    · simp only [Except.error.injEq] at h
      cases h

/-- C6: a typed read through `read_bytes_for_type` at a non-element-aligned
address fails with `UnalignedRead` (for every trace, so nothing is read);
at an element-aligned address no unaligned-read error can be produced — the
read either succeeds or fails with `OutOfBounds` from address-arithmetic
overflow. -/
theorem read_bytes_alignment (t : ExecutionTrace) (p : NativePtr)
    (sizeBytes sizeFelts : Nat) (ctx : Ctx) (clk : Nat) :
    (p.is_element_aligned = false →
      t.read_bytes_for_type p sizeBytes sizeFelts ctx clk = .error .UnalignedRead) ∧
    (p.is_element_aligned = true →
      t.read_bytes_for_type p sizeBytes sizeFelts ctx clk = .error .OutOfBounds ∨
      ∃ bs, t.read_bytes_for_type p sizeBytes sizeFelts ctx clk = .ok bs) := by
  constructor
  · intro h
    simp [ExecutionTrace.read_bytes_for_type, h]
  · intro h
    simp only [ExecutionTrace.read_bytes_for_type, h, if_true]
    cases hr : readElems t p.addr ctx clk sizeFelts with
    | ok elems => exact Or.inr ⟨accBytes elems sizeBytes, rfl⟩
    | error e =>
      cases e with
      | OutOfBounds => exact Or.inl rfl
      | UnalignedRead => exact absurd hr (readElemsAux_no_unaligned t p.addr ctx clk sizeFelts 0)

/-- Witness for C6: at a pointer with byte offset 1 the read fails
unaligned; at the aligned pointer to the same element it does not. -/
theorem read_bytes_alignment_witness :
    (NativePtr.is_element_aligned { addr := 2, offset := 1 } = false) ∧
    (sparseTrace 0 0 []).read_bytes_for_type { addr := 2, offset := 1 } 4 1 0 0 =
      .error .UnalignedRead ∧
    ((sparseTrace 0 0 []).read_bytes_for_type { addr := 2, offset := 0 } 4 1 0 0 =
        .error .OutOfBounds ∨
      ∃ bs, (sparseTrace 0 0 []).read_bytes_for_type { addr := 2, offset := 0 } 4 1 0 0 =
        .ok bs) :=
  ⟨rfl,
   (read_bytes_alignment (sparseTrace 0 0 []) { addr := 2, offset := 1 } 4 1 0 0).1 rfl,
   (read_bytes_alignment (sparseTrace 0 0 []) { addr := 2, offset := 0 } 4 1 0 0).2 rfl⟩

/-! ## C7: byte decoding of typed reads -/

/-- When no address computation overflows, the element-gathering loop
returns exactly the successive element reads (absent reads defaulting to
zero). -/
theorem readElemsAux_ok (t : ExecutionTrace) (base : Nat) (ctx : Ctx) (clk : Nat) :
    ∀ k i, base + i + k ≤ 2 ^ 32 →
      readElemsAux t base ctx clk i k =
        .ok ((List.range k).map fun j =>
          (t.read_memory_element_in_context (base + (i + j)) ctx clk).getD 0) := by
  intro k
  induction k with
  | zero => intro i _; simp [readElemsAux]
  | succ k ih =>
    intro i hb
    rw [readElemsAux]
    have hin : base + i ≤ u32Max := by simp only [u32Max]; omega
    rw [if_pos hin, ih (i + 1) (by omega)]
    have hshift : ∀ j : Nat, base + (i + 1 + j) = base + (i + (j + 1)) := by
      intro j; omega
    simp only [List.range_succ_eq_map, List.map_cons, List.map_map]
    simp [Function.comp_def, hshift, Nat.add_zero]

/-- The byte-accumulation loop is exactly "concatenate each element's four
big-endian low-32 bytes, then truncate to the needed byte count". -/
theorem accBytes_eq_take (elems : List Felt) :
    ∀ needed, accBytes elems needed =
      ((elems.map fun e => beBytes4 (low32 e)).flatten).take needed := by
  induction elems with
  | nil => intro needed; simp [accBytes]
  | cons e rest ih =>
    intro needed
    rw [accBytes, List.map_cons, List.flatten_cons, List.take_append_eq_append_take, ih]
    have hlen : (beBytes4 (low32 e)).length = 4 := rfl
    rw [hlen]
    have hsub : needed - needed ⊓ 4 = needed - 4 := by omega
    rw [hsub]
    congr 1
    rcases le_or_lt 4 needed with hle | hlt
    · rw [Nat.min_eq_right hle, List.take_of_length_le (le_of_eq hlen),
          List.take_of_length_le (hlen ▸ hle)]
    · rw [Nat.min_eq_left (Nat.le_of_lt hlt)]

/-- `read_memory_word` always yields the underlying word, with failures
reading as the zero word. -/
theorem read_memory_word_total (t : ExecutionTrace) (addr : Nat) :
    t.read_memory_word addr = some (wordReadZero t addr) := by
  cases h : t.memory.readWord t.root_context addr t.last_cycle <;>
    simp [ExecutionTrace.read_memory_word,
          ExecutionTrace.read_memory_word_in_context, wordReadZero, h]

/-- The word-gathering loop of `read_from_rust_memory_in_context` collects,
for each successive word address, the word read there with its element order
reversed. -/
theorem readRustWordsAux_ok (t : ExecutionTrace) (base : Nat) :
    ∀ k i, readRustWordsAux t base i k =
      some ((List.range k).map fun j =>
        (wordReadZero t (base + (i + j) * 4)).reverse) := by
  intro k
  induction k with
  | zero => intro i; simp [readRustWordsAux]
  | succ k ih =>
    intro i
    rw [readRustWordsAux]
    rw [read_memory_word_total, ih (i + 1)]
    have hshift : ∀ j : Nat, base + (i + 1 + j) * 4 = base + (i + (j + 1)) * 4 := by
      intro j; ring_nf
    simp only [List.range_succ_eq_map, List.map_cons, List.map_map, Option.bind_eq_bind,
               Option.some_bind]
    simp [Function.comp_def, hshift, Nat.add_zero]

/-- C7: an element-aligned typed read of `S` bytes over `N` elements whose
address arithmetic stays in range returns precisely the big-endian
concatenation of the successive elements' low 32 bits truncated to `S`
bytes; and a read spanning multiple words through the Rust-memory word path
collects each word with its element order reversed before concatenation. -/
theorem typed_read_decoding (t : ExecutionTrace) (p : NativePtr)
    (sizeBytes sizeFelts : Nat) (ctx : Ctx) (clk : Nat) (base numWords : Nat)
    (halign : p.is_element_aligned = true)
    (hbound : p.addr + sizeFelts ≤ 2 ^ 32)
    (_hmulti : 2 ≤ numWords) :
    t.read_bytes_for_type p sizeBytes sizeFelts ctx clk =
      .ok (((((List.range sizeFelts).map fun j =>
          (t.read_memory_element_in_context (p.addr + j) ctx clk).getD 0).map
            fun e => beBytes4 (low32 e)).flatten).take sizeBytes) ∧
    readRustWords t base numWords =
      some ((List.range numWords).map fun j =>
        (wordReadZero t (base + j * 4)).reverse) := by
  constructor
  · have hre : readElems t p.addr ctx clk sizeFelts =
        .ok ((List.range sizeFelts).map fun j =>
          (t.read_memory_element_in_context (p.addr + j) ctx clk).getD 0) := by
      have := readElemsAux_ok t p.addr ctx clk sizeFelts 0 (by omega)
      simpa [readElems] using this
    simp [ExecutionTrace.read_bytes_for_type, halign, hre, accBytes_eq_take]
  · have := readRustWordsAux_ok t base numWords 0
    simpa [readRustWords] using this

/-- Witness for C7: an 8-byte, 2-element read at element address 2 of a
memory holding `0x01020304` at address 2 and `0x0A0B0C0D` at address 3
returns the byte string 01 02 03 04 0A 0B 0C 0D; and a 2-word read collects
both words reversed. -/
theorem typed_read_decoding_witness :
    (sparseTrace 0 0 [(0, 2, 0x01020304), (0, 3, 0x0A0B0C0D)]).read_bytes_for_type
        { addr := 2, offset := 0 } 8 2 0 0 =
      .ok [1, 2, 3, 4, 10, 11, 12, 13] ∧
    readRustWords (sparseTrace 0 0 [(0, 2, 0x01020304), (0, 3, 0x0A0B0C0D)]) 0 2 =
      some [[0x0A0B0C0D, 0x01020304, 0, 0], [0, 0, 0, 0]] := by
  have h := typed_read_decoding
    (sparseTrace 0 0 [(0, 2, 0x01020304), (0, 3, 0x0A0B0C0D)])
    { addr := 2, offset := 0 } 8 2 0 0 0 2 rfl (by decide) (by decide)
  exact ⟨h.1, h.2⟩

/-! ## C4: breakpoint id allocation -/

/-- The scan loop only ever returns an id the used-predicate rejects. -/
theorem nextIdLoop_some_unused (used : Nat → Bool) (initial : Nat) :
    ∀ fuel candidate next id cur,
      nextIdLoop used initial candidate next fuel = some (id, cur) →
      used id = false := by
  intro fuel
  induction fuel with
  | zero => intro c n id cur h; simp [nextIdLoop] at h
  | succ fuel ih =>
    intro c n id cur h
    rw [nextIdLoop] at h
    split at h
    · simp at h
    · split at h
      · exact ih _ _ _ _ h
      · rename_i hni hused
        simp only [Option.some.injEq, Prod.mk.injEq] at h
        rw [← h.1]
        exact Bool.not_eq_true _ ▸ hused

/-- When every id is in use the scan loop reaches the `assert_ne!` (modelled
as `none`) — it never fabricates an id. -/
theorem nextIdLoop_all_used (used : Nat → Bool) (h : ∀ id, used id = true)
    (initial : Nat) : ∀ fuel candidate next,
      nextIdLoop used initial candidate next fuel = none := by
  intro fuel
  induction fuel with
  | zero => intro c n; rfl
  | succ fuel ih =>
    intro c n
    rw [nextIdLoop]
    split
    · rfl
    · rw [if_pos (h c)]
      exact ih n (u8wrap (n + 1))

/-- The scan loop finds the first unused id at offset `k` from the cursor:
if the `k` candidates before it are all used and the candidate at offset `k`
is free (with `k` small enough that the `assert_ne!` does not fire first),
the loop returns it together with the advanced cursor. -/
theorem nextIdLoop_finds (used : Nat → Bool) (cursor : Nat) (_hc : cursor < 256) :
    ∀ k fuel off, off + k < 255 → k < fuel →
      (∀ m < k, used (u8wrap (cursor + off + m)) = true) →
      used (u8wrap (cursor + off + k)) = false →
      nextIdLoop used cursor (u8wrap (cursor + off)) (u8wrap (cursor + off + 1)) fuel =
        some (u8wrap (cursor + off + k), u8wrap (cursor + off + k + 1)) := by
  intro k
  induction k with
  | zero =>
    intro fuel off hoff hfuel _ hfree
    cases fuel with
    | zero => omega
    | succ fuel =>
      rw [nextIdLoop]
      have hne : ¬ (cursor = u8wrap (cursor + off + 1)) := by
        simp only [u8wrap]
        omega
      rw [if_neg hne]
      have hfree0 : used (u8wrap (cursor + off)) = false := by
        simpa using hfree
      rw [hfree0]
      simp
  | succ k ih =>
    intro fuel off hoff hfuel hused hfree
    cases fuel with
    | zero => omega
    | succ fuel =>
      rw [nextIdLoop]
      have hne : ¬ (cursor = u8wrap (cursor + off + 1)) := by
        simp only [u8wrap]
        omega
      rw [if_neg hne]
      have hused0 : used (u8wrap (cursor + off)) = true := by
        simpa using hused 0 (by omega)
      rw [hused0]
      simp only [if_true]
      have hwrap : u8wrap (u8wrap (cursor + off + 1) + 1) = u8wrap (cursor + off + 2) := by
        simp only [u8wrap]
        omega
      rw [hwrap]
      have e1 : cursor + off + 1 = cursor + (off + 1) := by omega
      have e2 : cursor + off + 2 = cursor + (off + 1) + 1 := by omega
      rw [e1, e2]
      have := ih fuel (off + 1) (by omega) (by omega)
        (fun m hm => by
          have := hused (m + 1) (by omega)
          have e3 : cursor + off + (m + 1) = cursor + (off + 1) + m := by omega
          rwa [e3] at this)
        (by
          have e4 : cursor + (off + 1) + k = cursor + off + (k + 1) := by omega
          rwa [e4])
      rw [this]
      have e5 : cursor + (off + 1) + k = cursor + off + (k + 1) := by omega
      rw [e5]

set_option maxRecDepth 8192 in
/-- C4 counterexample: first, the allocator does not return the lowest
unused id — with no breakpoints at all and the cursor at 1, it allocates
id 1 while id 0 is free; second, 255 concurrently live breakpoints are not
the limit and allocating the 256th is not fatal — with ids 0..254 live and
the cursor at 255, allocation succeeds with id 255 (reaching 256 live,
pairwise distinct ids). -/
theorem breakpoint_id_counterexample :
    nextBreakpointId 1 (bpIdUsed [] []) = some (1, 2) ∧
    bpIdUsed [] [] 0 = false ∧
    nextBreakpointId 255
        (bpIdUsed ((List.range 255).map fun i =>
          { id := i, creation_cycle := 0, ty := BreakpointType.Next }) []) =
      some (255, 0) ∧
    (((List.range 255).map fun i =>
      ({ id := i, creation_cycle := 0, ty := BreakpointType.Next } : Breakpoint)).map
        Breakpoint.id) = List.range 255 := by
  refine ⟨rfl, rfl, ?_, by simp [Function.comp_def]⟩
  decide

/-- C4 amended: breakpoint id allocation never returns an id currently held
by a live or already-hit breakpoint; it scans upward from the stored cursor
(not from the lowest id) for the first unused id, wrapping within the 8-bit
id space; and exhaustion is fatal (`assert_ne!` panic, modelled as `none`)
rather than silent reuse — in particular when every id is held.  Up to 256
breakpoints can hold concurrently distinguishable ids. -/
theorem breakpoint_id_allocation (bps hit : List Breakpoint) (cursor : Nat)
    (hc : cursor < 256) :
    (∀ id cur, nextBreakpointId cursor (bpIdUsed bps hit) = some (id, cur) →
      bpIdUsed bps hit id = false) ∧
    ((∀ id, bpIdUsed bps hit id = true) →
      nextBreakpointId cursor (bpIdUsed bps hit) = none) ∧
    (∀ k, k < 255 →
      (∀ m < k, bpIdUsed bps hit (u8wrap (cursor + m)) = true) →
      bpIdUsed bps hit (u8wrap (cursor + k)) = false →
      nextBreakpointId cursor (bpIdUsed bps hit) =
        some (u8wrap (cursor + k), u8wrap (cursor + k + 1))) := by
  refine ⟨?_, ?_, ?_⟩
  · intro id cur h
    exact nextIdLoop_some_unused _ _ _ _ _ _ _ h
  · intro h
    exact nextIdLoop_all_used _ h _ _ _ _
  · intro k hk hused hfree
    have h0 : u8wrap (cursor + 0) = cursor := by
      simp only [u8wrap]
      omega
    have := nextIdLoop_finds (bpIdUsed bps hit) cursor hc k 256 0 (by omega) (by omega)
      (by simpa using hused) (by simpa using hfree)
    rw [h0] at this
    simpa [nextBreakpointId] using this

/-- Witness for C4: with the single live breakpoint id 0 and cursor 0, the
scan skips the used id 0 and allocates id 1 with cursor advanced to 2. -/
theorem breakpoint_id_allocation_witness :
    nextBreakpointId 0
        (bpIdUsed [{ id := 0, creation_cycle := 0, ty := BreakpointType.Next }] []) =
      some (1, 2) :=
  (breakpoint_id_allocation
      [{ id := 0, creation_cycle := 0, ty := BreakpointType.Next }] [] 0
      (by decide)).2.2 1 (by decide) (by decide) (by decide)

/-! ## C3: Finish breakpoints and the exact flagged frame -/

/-- A `Finish` breakpoint is matched by none of the generic per-step checks:
the `retain_mut` scan always keeps it live without hitting it. -/
theorem scanOne_finish (obs : StepObs) (d : Nat) (bp : Breakpoint)
    (h : bp.ty = BreakpointType.Finish) : scanOne obs d bp = (true, false) := by
  rcases obs with ⟨b, p, l, c⟩
  simp only [scanOne, Breakpoint.cycles_to_skip, Breakpoint.should_break_at,
             Breakpoint.should_break_in, h]
  cases l <;> cases p <;> simp

/-- C3: (1) creating a `Finish` breakpoint flags exactly the call frame that
is current at creation time (the innermost frame; no other frame is
touched) and records the breakpoint; (2) the call stack reconstructor
reports the popped frame as exited precisely when its break-on-exit flag
was set; (3) with a live `Finish` breakpoint, the free-run loop halts at the
first step whose exited frame carries the flag, and the `Finish` breakpoint
is one-shot — it is removed from the live set at that halt; (4) a step whose
exited frame does not carry the flag (for instance a recursive sibling of
the flagged frame, whatever its procedure name) does not halt the loop. -/
theorem finish_breakpoint_exact_frame (s : BpState) (f : CallFrame)
    (rest : CallStack) (id cur : Nat) (info : StepInfo) (fbp : Breakpoint)
    (steps : List StepR) (exited : Option CallFrame) (obs : StepObs)
    (failed : Option ExecError) (startCycle : Nat)
    (hstack : s.callstack = f :: rest)
    (halloc : nextBreakpointId s.next_breakpoint_id
        (bpIdUsed s.breakpoints s.breakpoints_hit) = some (id, cur))
    (hfin : fbp.ty = BreakpointType.Finish) :
    (createBreakpoint s BreakpointType.Finish =
      some { s with next_breakpoint_id := cur,
                    callstack := { f with break_on_exit := true } :: rest,
                    breakpoints := s.breakpoints ++
                      [{ id := id, creation_cycle := s.cycle,
                         ty := BreakpointType.Finish }] }) ∧
    ((callstackNext (f :: rest) [TraceEvent.FrameEnd] info).2 =
      if f.break_on_exit then some f else none) ∧
    (∀ g : CallFrame, g.should_break_on_exit = true →
      runUntilStopped (.stepped (some g) obs :: steps) [fbp] [] failed startCycle =
        { breakpoints := [], breakpoints_hit := [], execution_failed := failed,
          stopped := true, consumed := 1 }) ∧
    ((exited.map CallFrame.should_break_on_exit).getD false = false →
      runUntilStopped (.stepped exited obs :: steps) [fbp] [] failed startCycle =
        { runUntilStopped steps [fbp] [] failed startCycle with
          consumed := (runUntilStopped steps [fbp] [] failed startCycle).consumed + 1 }) := by
  refine ⟨?_, ?_, ?_, ?_⟩
  · simp [createBreakpoint, halloc, hstack, flagTopFrame, CallFrame.set_break_on_exit]
  · simp only [callstackNext, processEvents]
  · intro g hg
    have hg2 : g.break_on_exit = true := hg
    rw [runUntilStopped]
    simp [scanBps, scanOne_finish obs _ fbp hfin, CallFrame.should_break_on_exit, hg2,
          hfin]
  · intro hx
    rw [runUntilStopped]
    simp only [List.isEmpty_cons, Bool.false_eq_true, if_false]
    rw [scanBps, scanOne_finish obs _ fbp hfin, scanBps]
    simp [hx]

/-- Step observables used by the C3 witness. -/
def obsFib : StepObs :=
  { is_op_boundary := true, proc := some "fib", loc := none, cycle := 4 }

/-- Two same-named frames, one flagged and one not, for the C3 witness. -/
def frameFlagged : CallFrame :=
  { procedure := some "fib", break_on_exit := true }

/-- The unflagged recursive sibling of `frameFlagged`. -/
def frameSibling : CallFrame :=
  { procedure := some "fib", break_on_exit := false }

/-- The Finish breakpoint used in the C3 witness. -/
def finishBp : Breakpoint :=
  { id := 0, creation_cycle := 3, ty := BreakpointType.Finish }

/-- Witness for C3, at a concrete session: creating the `Finish` breakpoint
flags the current frame; the reconstructor reports a popped flagged frame
and stays silent for an unflagged one; the loop halts (consuming the
breakpoint) when the flagged frame exits, and keeps running past the exit
of the same-named unflagged sibling. -/
theorem finish_breakpoint_witness :
    (createBreakpoint
        { breakpoints := [], breakpoints_hit := [], next_breakpoint_id := 0,
          callstack := [frameSibling], cycle := 3 } BreakpointType.Finish =
      some { breakpoints := [finishBp], breakpoints_hit := [],
             next_breakpoint_id := 1, callstack := [frameFlagged], cycle := 3 }) ∧
    ((callstackNext [frameFlagged] [TraceEvent.FrameEnd] {}).2 = some frameFlagged) ∧
    ((callstackNext [frameSibling] [TraceEvent.FrameEnd] {}).2 = none) ∧
    (runUntilStopped [.stepped (some frameFlagged) obsFib] [finishBp] [] none 3 =
      { breakpoints := [], breakpoints_hit := [], execution_failed := none,
        stopped := true, consumed := 1 }) ∧
    (runUntilStopped [.stepped (some frameSibling) obsFib] [finishBp] [] none 3 =
      { breakpoints := [finishBp], breakpoints_hit := [], execution_failed := none,
        stopped := true, consumed := 1 }) := by
  have T := finish_breakpoint_exact_frame
    { breakpoints := [], breakpoints_hit := [], next_breakpoint_id := 0,
      callstack := [frameSibling], cycle := 3 }
    frameSibling [] 0 1 {} finishBp [] (some frameSibling) obsFib
    none 3 rfl rfl rfl
  exact ⟨T.1, rfl, T.2.1, T.2.2.1 frameFlagged rfl, T.2.2.2 rfl⟩

end MidenDebug
